import Mathlib

/-!
Verification of the Heuristic Content Extraction Engine of the
PowerPoint-Documentation-Extractor repository (src/doc_updates.py).

The development shallowly embeds the engine: slide decks become inert data
(lists of shapes, paragraphs and runs), the Python regular expressions used
by the extractors become a small executable matcher with Python's
leftmost/greedy backtracking order, exceptions become `Except`, and the
extraction functions of class `DocumentationExtractor` become Lean functions
of the same names.  All definitions are executable so that concrete slides
can be evaluated inside proofs.
-/

namespace DocExtract

/-! ## Python string primitives

Helpers mirroring the Python string operations used by the source:
`str.strip`, `str.lower`, substring membership (`in`), `str.split('\n')`,
whitespace word-splitting, and slicing. They operate on `List Char`, the
logical model of `String`. -/

/-- Python's notion of whitespace for `str.strip` and the regex class `\s`
(ASCII fragment; the source only meets ASCII whitespace). -/
def isPySpace (c : Char) : Bool :=
  c = ' ' || c = '\t' || c = '\n' || c = '\r' || c = '\x0b' || c = '\x0c'

/-- Python `str.strip()` on the character list. -/
def pyStripL (l : List Char) : List Char :=
  ((l.dropWhile isPySpace).reverse.dropWhile isPySpace).reverse

/-- Python `str.strip()`. -/
def pyStrip (s : String) : String := ⟨pyStripL s.data⟩

/-- Python `str.lower()` (ASCII; the non-ASCII characters appearing in the
source — bullets, dashes, the copyright sign — are unaffected by lowering). -/
def pyLower (s : String) : String := ⟨s.data.map Char.toLower⟩

/-- Case-insensitive character list prefix test (both sides lowered). -/
def ciPrefix : List Char → List Char → Bool
  | [], _ => true
  | _ :: _, [] => false
  | a :: as, b :: bs => a.toLower = b.toLower && ciPrefix as bs

/-- Auxiliary for Python `needle in hay`: substring search on lists. -/
def subListAux (n : List Char) : List Char → Bool
  | [] => n.isEmpty
  | c :: t => n.isPrefixOf (c :: t) || subListAux n t

/-- Python substring membership `needle in hay`. -/
def strIn (needle hay : String) : Bool := subListAux needle.data hay.data

/-- Python `s.split('\n')` on the character list (keeps empty pieces). -/
def splitNl : List Char → List (List Char)
  | [] => [[]]
  | c :: cs =>
    let r := splitNl cs
    if c = '\n' then [] :: r
    else match r with
      | [] => [[c]]
      | h :: t => (c :: h) :: t

/-- Python `s.split('\n')` as strings. -/
def pySplitNl (s : String) : List String := (splitNl s.data).map (⟨·⟩)

/-- Number of whitespace-separated words, Python `len(s.split())`. -/
def countWordsAux (inWord : Bool) : List Char → Nat
  | [] => 0
  | c :: cs =>
    if isPySpace c then countWordsAux false cs
    else (if inWord then 0 else 1) + countWordsAux true cs

def pyWordCount (s : String) : Nat := countWordsAux false s.data

/-- Python `s.find(sub)` (first index or -1), as used lowercased by the
vocabulary extractor. -/
def pyFindAux (n : List Char) (i : Nat) : List Char → Int
  | [] => if n.isEmpty then (i : Int) else -1
  | c :: t => if n.isPrefixOf (c :: t) then (i : Int) else pyFindAux n (i + 1) t

def pyFind (hay needle : String) : Int := pyFindAux needle.data 0 hay.data

/-- Python slicing `s[k:]` with the negative-index convention. -/
def pySliceFrom (s : String) (k : Int) : String :=
  ⟨s.data.drop (if k < 0 then ((s.data.length : Int) + k).toNat else k.toNat)⟩

/-- Join with newlines: the flattened `text` of a pptx text frame. -/
def joinNl : List String → String
  | [] => ""
  | [s] => s
  | s :: rest => s ++ "\n" ++ joinNl rest

/-- Python `sep.join(parts)` for a one-character space separator
(`' '.join(definition_parts)`). -/
def joinSpace : List String → String
  | [] => ""
  | [s] => s
  | s :: rest => s ++ " " ++ joinSpace rest

/-- Split a character list at a separator character, Python
`s.split('_')`-style: the result is never empty and keeps empty pieces. -/
def splitOnChar (sep : Char) : List Char → List (List Char)
  | [] => [[]]
  | c :: cs =>
    let r := splitOnChar sep cs
    if c = sep then [] :: r
    else match r with
      | [] => [[c]]
      | h :: t => (c :: h) :: t

/-! ## Regular expressions

The source uses a fixed family of `re` patterns, all with `re.IGNORECASE`:
literal phrases, the classes `\s`, `\d`, `[.)]` and `[:-]`, the quantifiers
`?`, `*`, `+` on single characters, the word boundary `\b`, the anchors `^`
and `$` (no MULTILINE: `^` is start of string, `$` is end of string or just
before one final newline), and one capturing group `(.+)`.  `matchE` below
enumerates the parses of a sequence of such elements in Python's
backtracking preference order (greedy first); the head of the list is the
parse a Python match object reports.  The `fuel` argument only bounds the
recursion depth — every call site passes enough fuel for it never to run
out (each step consumes an element or a character). -/

def isPyDigit (c : Char) : Bool := '0' ≤ c && c ≤ '9'

/-- Python regex word character (`\w` over ASCII input). -/
def isWordChar (c : Char) : Bool := c.isAlphanum || c = '_'

/-- One element of a regex, as used by the source's patterns. -/
inductive RElem where
  /-- a case-insensitive literal phrase -/
  | lit (s : String)
  /-- one character of a class -/
  | cls (p : Char → Bool)
  /-- an optional character of a class (`?`, greedy) -/
  | opt (p : Char → Bool)
  /-- zero or more characters of a class (`*`, greedy) -/
  | many (p : Char → Bool)
  /-- one or more characters of a class (`+`, greedy) -/
  | many1 (p : Char → Bool)
  /-- a word boundary `\b` -/
  | wordB

/-- Whether an optional character is a word character (`\b` context;
outside the string counts as a non-word position). -/
def isWordO : Option Char → Bool
  | none => false
  | some c => isWordChar c

/-- All parses of `es` against `cs`, each given as (last consumed character,
unconsumed suffix), in Python's backtracking preference order; `prev` is the
character just before the current position (for `\b`). -/
def matchE (fuel : Nat) (es : List RElem) (prev : Option Char)
    (cs : List Char) : List (Option Char × List Char) :=
  match fuel with
  | 0 => []
  | fuel + 1 =>
    match es with
    | [] => [(prev, cs)]
    | .lit s :: es' =>
      if ciPrefix s.data cs then
        matchE fuel es' (s.data.getLast?.orElse fun _ => prev) (cs.drop s.data.length)
      else []
    | .cls p :: es' =>
      match cs with
      | [] => []
      | c :: t => if p c then matchE fuel es' (some c) t else []
    | .opt p :: es' =>
      (match cs with
       | [] => []
       | c :: t => if p c then matchE fuel es' (some c) t else []) ++
      matchE fuel es' prev cs
    | .many p :: es' =>
      (match cs with
       | [] => []
       | c :: t => if p c then matchE fuel (.many p :: es') (some c) t else []) ++
      matchE fuel es' prev cs
    | .many1 p :: es' =>
      match cs with
      | [] => []
      | c :: t => if p c then matchE fuel (.many p :: es') (some c) t else []
    | .wordB :: es' =>
      if isWordO prev != isWordO cs.head? then matchE fuel es' prev cs else []

/-- A whole pattern: optional `^` and `$` anchors around a sequence. -/
structure RPat where
  aStart : Bool := false
  elems : List RElem
  aEnd : Bool := false

/-- Enough fuel for `matchE` on `cs`: each step consumes an element or a
character, and a `many` step consumes a character. -/
def fuelFor (es : List RElem) (cs : List Char) : Nat :=
  es.length + cs.length + 1

/-- Parses at the current position that also satisfy a `$` anchor. -/
def anchoredParses (pat : RPat) (prev : Option Char) (cs : List Char) :
    List (Option Char × List Char) :=
  let ms := matchE (fuelFor pat.elems cs) pat.elems prev cs
  if pat.aEnd then ms.filter (fun pr => pr.2.isEmpty || pr.2 = ['\n']) else ms

/-- `re.search`: scan start positions left to right; at the first position
with a parse, report the end index of the preferred parse.  `total` is the
length of the whole subject, `i` the current start index. -/
def reSearchAux (pat : RPat) (total : Nat) (prev : Option Char)
    (cs : List Char) (i : Nat) : Option (Nat × Nat) :=
  match anchoredParses pat prev cs with
  | (_, rest) :: _ => some (i, total - rest.length)
  | [] =>
    match cs with
    | [] => none
    | c :: t => reSearchAux pat total (some c) t (i + 1)

/-- `re.search(pat, s, re.IGNORECASE)`: `some (start, end)` of the match
Python reports, or `none`. -/
def reSearch (pat : RPat) (s : String) : Option (Nat × Nat) :=
  if pat.aStart then
    match anchoredParses pat none s.data with
    | (_, rest) :: _ => some (0, s.data.length - rest.length)
    | [] => none
  else reSearchAux pat s.data.length none s.data 0

/-- Truth of `re.search(pat, s, re.IGNORECASE)` used as a condition. -/
def reTest (pat : RPat) (s : String) : Bool := (reSearch pat s).isSome

/-- `re.match(pat, s)`: anchored at the start, used as a condition. -/
def reMatchStart (elems : List RElem) (s : String) : Bool :=
  !(matchE (fuelFor elems s.data) elems none s.data).isEmpty

/-! ## Derived regex operations of the source -/

/-- The class `[\.\)]` / `[.)]` of the numbered-list marker. -/
def isDotParen (c : Char) : Bool := c = '.' || c = ')'

/-- Elements of `^\d+[\.\)]\s+`, the numbered-list marker pattern used by
`_clean_list_item`, `extract_session_goals` and `extract_assessments`. -/
def numMarkerElems : List RElem := [.many1 isPyDigit, .cls isDotParen, .many1 isPySpace]

/-- Whether `re.sub(r'^\d+[\.\)]\s+', '', text)` finds its anchored match:
a leading digit run followed by a period or closing parenthesis and
whitespace. -/
def hasNumMarker (s : String) : Bool :=
  !(matchE (fuelFor numMarkerElems s.data) numMarkerElems none s.data).isEmpty

/-- `re.sub(r'^\d+[\.\)]\s+', '', text)`: remove the anchored match (the
preferred, greedy parse) if there is one. -/
def stripNumMarker (s : String) : String :=
  match matchE (fuelFor numMarkerElems s.data) numMarkerElems none s.data with
  | (_, rest) :: _ => ⟨rest⟩
  | [] => s

/-- The bullet glyphs of `lstrip('•·-*◦')`. -/
def isBulletGlyph (c : Char) : Bool :=
  c = '•' || c = '·' || c = '-' || c = '*' || c = '◦'

/-- Python `text.lstrip('•·-*◦')`. -/
def lstripBullets (s : String) : String := ⟨s.data.dropWhile isBulletGlyph⟩

/-- `line.startswith(('•', '·', '-', '*', '◦'))`. -/
def startsWithBullet (s : String) : Bool :=
  match s.data.head? with
  | some c => isBulletGlyph c
  | none => false

/-- `re.match(r'^\d+\.?\s+', line)` used by the careers, materials and
assessments extractors to spot numbered lines. -/
def matchesNumberedLine (s : String) : Bool :=
  reMatchStart [.many1 isPyDigit, .opt (· = '.'), .many1 isPySpace] s

/-- The separator class `[:-]` of the vocabulary definition pattern. -/
def isColonDash (c : Char) : Bool := c = ':' || c = '-'

/-- The suffix elements of `re.search(f'{escaped}\s*[:-]?\s*(.+)', full_text,
re.IGNORECASE)` after the escaped term. -/
def termDefTailElems : List RElem :=
  [.many isPySpace, .opt isColonDash, .many isPySpace]

/-- Try the vocabulary definition pattern at one position: parses of the
tail after the literal term, preferred first; the group `(.+)` needs a
non-empty run of non-newline characters and captures it greedily. -/
def termDefHere (term : List Char) (cs : List Char) : Option (List Char) :=
  if ciPrefix term cs then
    let rest := cs.drop term.length
    let parses := matchE (fuelFor termDefTailElems rest) termDefTailElems none rest
    (parses.filterMap fun pr =>
      let cap := pr.2.takeWhile (· ≠ '\n')
      if cap.isEmpty then none else some cap).head?
  else none

/-- `re.search(f'{re.escape(term)}\s*[:-]?\s*(.+)', full_text, re.IGNORECASE)`
returning `group(1)` of the match Python reports, or `none`. -/
def termDefSearchAux (term : List Char) : List Char → Option (List Char)
  | [] => termDefHere term []
  | c :: t =>
    match termDefHere term (c :: t) with
    | some cap => some cap
    | none => termDefSearchAux term t

def termDefSearch (term fullText : String) : Option String :=
  (termDefSearchAux term.data fullText.data).map (⟨·⟩)

/-! ## The source's trigger patterns -/

/-- `extract_session_goals` trigger patterns, in order. -/
def goalsTriggerPats : List RPat :=
  [ ⟨false, [.lit "In today's session", .opt (· = ','), .many isPySpace,
             .lit "you will", .opt (· = ':')], false⟩,
    ⟨false, [.lit "In this session", .opt (· = ','), .many isPySpace,
             .lit "you will", .opt (· = ':')], false⟩,
    ⟨false, [.lit "Today", .opt (· = ','), .many isPySpace,
             .lit "you will", .opt (· = ':')], false⟩,
    ⟨true, [.lit "GOALS"], true⟩,
    ⟨true, [.lit "Goals"], true⟩,
    ⟨false, [.lit "Session Goals"], false⟩,
    ⟨false, [.lit "Learning Goals"], false⟩,
    ⟨true, [.lit "Objectives"], true⟩ ]

/-- `extract_assessments` trigger patterns, in order. -/
def assessTriggerPats : List RPat :=
  [ ⟨false, [.lit "your instructor will be evaluating you"], false⟩,
    ⟨false, [.lit "listed onscreen are the specific items"], false⟩,
    ⟨false, [.lit "assessment"], false⟩,
    ⟨false, [.lit "you will be evaluated on"], false⟩,
    ⟨false, [.lit "evaluation criteria"], false⟩,
    ⟨false, [.lit "instructor will evaluate"], false⟩,
    ⟨false, [.lit "assessment criteria"], false⟩,
    ⟨false, [.lit "performance indicators"], false⟩,
    ⟨false, [.lit "you should be able to"], false⟩ ]

/-- `extract_careers` trigger patterns `\brelated careers\b`, `\bcareers\b`. -/
def careersTriggerPats : List RPat :=
  [ ⟨false, [.wordB, .lit "related careers", .wordB], false⟩,
    ⟨false, [.wordB, .lit "careers", .wordB], false⟩ ]

/-- `extract_session_materials` trigger patterns. -/
def materialsTriggerPats : List RPat :=
  [ ⟨false, [.lit "gather", .many1 isPySpace, .lit "the", .many1 isPySpace,
             .lit "following", .many1 isPySpace, .lit "item", .opt (· = 's')], false⟩,
    ⟨false, [.lit "locate", .many1 isPySpace, .lit "the", .many1 isPySpace,
             .lit "following"], false⟩,
    ⟨false, [.wordB, .lit "locate", .many1 isPySpace, .lit "the", .wordB], false⟩ ]

/-- `any(re.search(pat, s, re.IGNORECASE) for pat in pats)`. -/
def anyTrigger (pats : List RPat) (s : String) : Bool := pats.any (reTest · s)

/-- The first pattern (in list order) with a match anywhere in `s`, giving
`match.end()` — the trigger cut-point of the goals/assessments extractors. -/
def firstTriggerEnd (pats : List RPat) (s : String) : Option Nat :=
  match pats with
  | [] => none
  | p :: ps =>
    match reSearch p s with
    | some (_, e) => some e
    | none => firstTriggerEnd ps s

/-! ## Color values, theme resolution and the Color Classifier -/

/-- A color object as handed to `is_blue_color`: either a well-formed value
whose three channel accessors yield integers 0–255, or a malformed object
whose channel access raises (swallowed by the classifier's bare `except`). -/
inductive RGBValue where
  | mk (r g b : Nat)
  | malformed
deriving DecidableEq

/-- Channel extraction, the only part of `is_blue_color`'s `try` block that
can raise. -/
def getChannels : RGBValue → Except Unit (Nat × Nat × Nat)
  | .mk r g b => .ok (r, g, b)
  | .malformed => .error ()

/-- `self.blue_color_ranges`: the fixed bounding boxes
(r_min, g_min, b_min, r_max, g_max, b_max). -/
def blue_color_ranges : List (Nat × Nat × Nat × Nat × Nat × Nat) :=
  [ (0, 0, 200, 255, 255, 255),
    (0, 100, 150, 100, 255, 255),
    (0, 150, 200, 150, 255, 255),
    (30, 144, 255, 70, 180, 255),
    (0, 191, 255, 50, 220, 255),
    (64, 224, 208, 100, 255, 230) ]

/-- The bounding-box loop of `is_blue_color`. -/
def inAnyBlueRange (r g b : Nat) : Bool :=
  blue_color_ranges.any fun bx =>
    bx.1 ≤ r && r ≤ bx.2.2.2.1 &&
    bx.2.1 ≤ g && g ≤ bx.2.2.2.2.1 &&
    bx.2.2.1 ≤ b && b ≤ bx.2.2.2.2.2

/-- `abs(x - y)` on channel values. -/
def chanDist (x y : Nat) : Nat := ((x : Int) - (y : Int)).natAbs

/-- The body of `is_blue_color` once the three channels are in hand,
with the source's check order: bounding boxes first, then the near-white
and gray exclusions, then the dominance/turquoise/medium-blue heuristics. -/
def isBlueCore (r g b : Nat) : Bool :=
  if inAnyBlueRange r g b then true
  else if r > 200 && g > 200 && b > 200 then false
  else if chanDist r g < 10 && chanDist g b < 10 && chanDist r b < 10 then false
  else if b > r + 50 && b > g + 50 && b > 120 then true
  else if g > 150 && b > 150 && r < 80 then true
  else if b > 180 && b > r + 30 && b > g + 30 then true
  else false

/-- `is_blue_color(rgb)`: `None` is rejected up front; the `try` block
classifies, and any exception in it yields `False` via the bare `except`. -/
def is_blue_color (rgb : Option RGBValue) : Bool :=
  match rgb with
  | none => false
  | some v =>
    match getChannels v >>= fun c => .ok (isBlueCore c.1 c.2.1 c.2.2) with
    | .ok result => result
    | .error _ => false

/-- A run's or paragraph's color specification: an explicit RGB (the
`.rgb` attribute), a theme-color index (the `.theme_color` attribute), or
neither.  The two attributes are checked in this order by
`get_effective_color`; at most one is present on a pptx color object. -/
structure ColorSpec where
  rgb : Option RGBValue := none
  themeIdx : Option Nat := none

/-- The document's theme palette: what
`resolve_theme_color_to_rgb` reads through `theme_color_map`; slot lookup
can fail (missing theme part, slot without an `rgb`), modelled by `Option`. -/
structure Pres where
  palette : Nat → Option RGBValue

/-- `resolve_theme_color_to_rgb`: indices 1–12 map to the palette slots;
anything else (or any lookup failure) yields `None`. -/
def resolve_theme_color_to_rgb (pres : Pres) (idx : Nat) : Option RGBValue :=
  if 1 ≤ idx && idx ≤ 12 then pres.palette idx else none

/-- One layer of `get_effective_color`: explicit RGB first, then the theme
color resolved against the palette (falling through when either is absent
or resolution fails). -/
def colorLayer (pres : Pres) (spec : ColorSpec) : Option RGBValue :=
  match spec.rgb with
  | some v => some v
  | none =>
    match spec.themeIdx with
    | some idx => resolve_theme_color_to_rgb pres idx
    | none => none

/-! ## The slide object model

The already-parsed object graph the engine consumes (spec §6): runs with
raw text, a bold flag and a color specification; paragraphs
owning runs plus a paragraph-level color; text frames owning paragraphs
with a flattened text; shapes that may or may not carry a text frame. The
flattened views are the pptx ones: a paragraph's `text` is the
concatenation of its runs' texts, a text frame's `text` joins its
paragraphs' texts with newlines. -/

structure TextRun where
  text : String
  bold : Bool := false
  color : ColorSpec := {}

structure ParagraphM where
  runs : List TextRun
  color : ColorSpec := {}

/-- `paragraph.text`. -/
def paraText (p : ParagraphM) : String := String.join (p.runs.map TextRun.text)

/-- A text frame: its ordered paragraphs. -/
abbrev TextFrameM := List ParagraphM

/-- `text_frame.text`. -/
def tfText (tf : TextFrameM) : String := joinNl (tf.map paraText)

/-- A shape: `none` models a shape without the `text_frame` attribute. -/
abbrev ShapeM := Option TextFrameM

abbrev SlideM := List ShapeM

/-- `get_effective_color(run, paragraph, presentation)`: run-level explicit
RGB or resolved theme color, then the same at paragraph level, then the
document default (theme slot 1). -/
def get_effective_color (run : TextRun) (para : ParagraphM) (pres : Pres) :
    Option RGBValue :=
  match colorLayer pres run.color with
  | some v => some v
  | none =>
    match colorLayer pres para.color with
    | some v => some v
    | none => resolve_theme_color_to_rgb pres 1

/-! ## The Term Exclusion Filter -/

/-- Lower-case alphanumeric characters, the complement of the class
`[^a-z0-9]` of `_normalize_phrase` (applied after `.lower()`). -/
def isLowAlnum (c : Char) : Bool := ('a' ≤ c && c ≤ 'z') || ('0' ≤ c && c ≤ '9')

/-- Replace every maximal run of non-`[a-z0-9]` characters by one space
(`re.sub(r'[^a-z0-9]+', ' ', ·)`); `inRun` remembers an open run. -/
def collapseNonAlnum (inRun : Bool) : List Char → List Char
  | [] => []
  | c :: cs =>
    if isLowAlnum c then c :: collapseNonAlnum false cs
    else if inRun then collapseNonAlnum true cs
    else ' ' :: collapseNonAlnum true cs

/-- `_normalize_phrase`: lower, collapse non-alphanumeric runs to single
spaces, strip. -/
def normalize_phrase (text : String) : String :=
  pyStrip ⟨collapseNonAlnum false (pyLower text).data⟩

/-- `self.non_vocab_terms_normalized`. -/
def non_vocab_terms_normalized : List String :=
  [ "direct instruction", "procedure", "direct instruction procedure", "procedure safety",
    "direct instruction, procedure", "direct instruction , procedure",
    "vocab definition", "module guide", "assessment", "goals", "gather", "clean up",
    "summary", "fa kc", "activity lead in", "post test", "intro", "worksheet",
    "careers", "related careers", "materials", "session materials",
    "gather the following items", "gather the following item",
    "locate the following", "locate the",
    "insert slide type", "insert slide layout", "insert media description" ]

/-- The `placeholder_patterns` list of `should_exclude_vocab`. -/
def placeholder_patterns : List String :=
  [ "direct instruction", "procedure", "worksheet", "vocab definition",
    "activity lead in", "gather", "clean up", "summary", "goals",
    "assessment", "careers", "related careers", "materials",
    "session materials", "fa kc", "post test", "intro",
    "insert slide", "insert media", "insert layout", "objectives" ]

/-- The `placeholder_starts` list of `should_exclude_vocab`. -/
def placeholder_starts : List String :=
  [ "insert", "post", "direct", "procedure", "vocab", "gather", "clean" ]

/-- Python `s.split(',')`. -/
def pySplitComma (s : String) : List String := (splitOnChar ',' s.data).map (⟨·⟩)

/-- The comma-segment test of `should_exclude_vocab`: a part is a
placeholder when some pattern contains it or is contained in it. -/
def partIsPlaceholder (part : String) : Bool :=
  let pn := normalize_phrase part
  placeholder_patterns.any fun pat => strIn pat pn || strIn pn pat

/-- `should_exclude_vocab(text)`, check for check in the source's order. -/
def should_exclude_vocab (text : String) : Bool :=
  if text = "" then true
  else
    let clean_text := pyStrip text
    let normalized := normalize_phrase clean_text
    if normalized.length ≤ 2 then true
    else if clean_text.length ≤ 2 then true
    else if placeholder_patterns.any (fun pat => strIn pat normalized) then true
    else if normalized ∈ non_vocab_terms_normalized then true
    else if placeholder_starts.any
        (fun w => (w ++ " ").data.isPrefixOf normalized.data) then true
    else if (" worksheet").data.isSuffixOf normalized.data ||
            (" definition").data.isSuffixOf normalized.data then true
    else if strIn "," clean_text then
      (pySplitComma clean_text).all fun part => partIsPlaceholder (pyStrip part)
    else false

/-! ## The Vocabulary Extractor -/

/-- The punctuation set of the bold-only fallback:
`any(char in text for char in '.,!?;[]()')`. -/
def hasVocabPunct (s : String) : Bool :=
  s.data.any fun c =>
    c = '.' || c = ',' || c = '!' || c = '?' || c = ';' ||
    c = '[' || c = ']' || c = '(' || c = ')'

/-- Python `text.isdigit()` (ASCII digits; the source only meets those). -/
def pyIsDigit (s : String) : Bool := !s.data.isEmpty && s.data.all isPyDigit

/-- The first run loop of `extract_vocabulary_from_slide`: find the first
bold, emphasis-colored, non-excluded run (the candidate term) and collect
the stripped texts of every later non-empty run (the definition parts). -/
def vocabScanRuns (pres : Pres) (para : ParagraphM) :
    Option String × List String :=
  para.runs.foldl
    (fun st run =>
      let text := pyStrip run.text
      if text = "" then st
      else
        let is_blue := is_blue_color (get_effective_color run para pres)
        let is_bold := run.bold
        if is_blue && is_bold && st.1.isNone && !should_exclude_vocab text then
          (some text, st.2)
        else if st.1.isSome then (st.1, st.2 ++ [text])
        else st)
    (none, [])

/-- The bold-only fallback loop: the first bold run whose stripped text is
2–3 words, free of `.,!?;[]()`, not purely numeric, longer than 2
characters and not filter-excluded. -/
def vocabFallback (para : ParagraphM) : Option String :=
  para.runs.foldl
    (fun found run =>
      match found with
      | some w => some w
      | none =>
        let text := pyStrip run.text
        if text ≠ "" && run.bold && !should_exclude_vocab text &&
            1 < pyWordCount text && pyWordCount text ≤ 3 &&
            !hasVocabPunct text && !pyIsDigit text && text.length > 2 then
          some text
        else none)
    none

/-- Definition computation for a found term: (1) the regex capture; (2) the
joined definition parts; (3) the paragraph text after the term's first
case-insensitive occurrence, with one leading separator dropped. -/
def computeDefinition (vocab_word : String) (definition_parts : List String)
    (full_text : String) : String :=
  match termDefSearch vocab_word full_text with
  | some g => pyStrip g
  | none =>
    let definition := pyStrip (joinSpace definition_parts)
    if definition ≠ "" then definition
    else
      let text_after_vocab :=
        pyStrip (pySliceFrom full_text
          (pyFind (pyLower full_text) (pyLower vocab_word) +
            (vocab_word.length : Int)))
      match text_after_vocab.data.head? with
      | some c =>
        if c = ':' || c = '-' || c = '–' || c = '—' then
          pyStrip ⟨text_after_vocab.data.drop 1⟩
        else text_after_vocab
      | none => text_after_vocab

/-- The candidate term of a paragraph (first loop, then the bold-only
fallback) together with the accumulated definition parts (empty whenever
the fallback found the term, since the first loop saw no term). -/
def findVocabWord (pres : Pres) (para : ParagraphM) :
    Option String × List String :=
  let st := vocabScanRuns pres para
  match st.1 with
  | some w => (some w, st.2)
  | none => (vocabFallback para, st.2)

/-- Per-paragraph vocabulary extraction: zero or one (term, definition)
pair, emitted only when the definition is non-empty and longer than 3
characters. -/
def extractVocabFromParagraph (pres : Pres) (para : ParagraphM) :
    List (String × String) :=
  if pyStrip (paraText para) = "" then []
  else
    match findVocabWord pres para with
    | (none, _) => []
    | (some w, definition_parts) =>
      let definition := computeDefinition w definition_parts (paraText para)
      if definition ≠ "" && definition.length > 3 then [(w, definition)]
      else []

/-- `extract_vocabulary_from_slide`: every paragraph of every shape with a
text frame, in order. -/
def extract_vocabulary_from_slide (pres : Pres) (slide : SlideM) :
    List (String × String) :=
  slide.foldl
    (fun acc sh =>
      match sh with
      | none => acc
      | some tf => tf.foldl (fun a para => a ++ extractVocabFromParagraph pres para) acc)
    []

/-! ## Section Trigger Extractors: shared pieces -/

/-- The guarded append all four extractors and the aggregator use:
`if item and item not in acc: acc.append(item)` without the emptiness
check (checked separately by the callers that need it). -/
def addIfNew (acc : List String) (x : String) : List String :=
  if x ∈ acc then acc else acc ++ [x]

/-- One accepted line: keep it when the guard holds, clean it, and append
it when non-empty and new. -/
def lineStep (keep : String → Bool) (cleanF : String → String)
    (acc : List String) (raw : String) : List String :=
  if keep raw then
    let c := cleanF raw
    if c = "" then acc else addIfNew acc c
  else acc

/-- The careers/materials per-line state machine: a trigger line sets the
flag and is skipped; after the flag, non-empty accepted lines are cleaned
and appended when new. -/
def trigStep (isTrig keep : String → Bool) (cleanF : String → String)
    (st : Bool × List String) (line : String) : Bool × List String :=
  if isTrig line then (true, st.2)
  else if st.1 && line ≠ "" && keep line then
    let c := cleanF line
    (st.1, if c = "" then st.2 else addIfNew st.2 c)
  else st

/-- `_clean_list_item`: strip the numbered-list marker (only a digit run
followed by `.`/`)` and whitespace), strip leading bullet glyphs, strip.
`extract_session_goals` and `extract_assessments` inline these same three
operations for their lines. -/
def clean_list_item (text : String) : String :=
  pyStrip (lstripBullets (stripNumMarker text))

/-- Clean applied to a raw split line, which the goals/assessments loops
first strip (`line = line.strip()`). -/
def cleanStrippedLine (raw : String) : String := clean_list_item (pyStrip raw)

/-- `line[:1].isupper()`. -/
def firstIsUpper (s : String) : Bool :=
  match s.data.head? with
  | some c => c.isUpper
  | none => false

/-- `line.endswith(':')`. -/
def endsWithColon (s : String) : Bool := s.data.getLast? = some ':'

/-- The `skip_term` list shared by the goals and assessments standalone
branches. -/
def skip_terms : List String :=
  ["insert", "slide layout", "media description", "copyright", "©"]

/-! ## Goals extractor -/

/-- Trigger-fragment echoes skipped by the goals extractor. -/
def goalsTrigFragments : List String :=
  [ "in today's session", "in this session", "today, you will", "you will:",
    "goals:", "objectives:", "session goals", "learning goals" ]

/-- Lines that are just trigger words. -/
def goalsExactSkips : List String :=
  ["goals", "objectives", "session goals", "learning goals"]

/-- Instructional boilerplate skipped by the goals trigger branch. -/
def goalsInstructions : List String :=
  [ "now that you have completed", "module activity sheet", "student portfolio",
    "turn on your call light", "review the following skills",
    "waiting for your instructor" ]

/-- The goal-like action vocabulary of the standalone branches. -/
def goalWords : List String :=
  [ "will", "explore", "examine", "learn", "understand", "identify",
    "analyze", "demonstrate", "observe", "discover", "explain",
    "describe", "investigate", "construct", "compare", "use",
    "apply", "evaluate", "create", "synthesize", "capture",
    "develop", "practice", "determine", "calculate", "solve",
    "recognize", "review", "begin", "complete" ]

/-- Keep-guard of the goals trigger branch: non-trivial line, no trigger
fragment, not a bare trigger word, no instructional sentence. -/
def goalsTrigLineKeep (raw : String) : Bool :=
  let line := pyStrip raw
  line ≠ "" && line.length > 3 &&
    (let ll := pyLower line
     !(goalsTrigFragments.any (fun f => strIn f ll) ||
       pyStrip ll ∈ goalsExactSkips ||
       goalsInstructions.any (fun f => strIn f ll)))

/-- Keep-guard of the goals standalone line branch. -/
def goalsStandaloneKeep (raw : String) : Bool :=
  let line := pyStrip raw
  line ≠ "" && line.length > 10 &&
    (let ll := pyLower line
     !(skip_terms.any (fun t => strIn t ll) ||
       goalsTrigFragments.any (fun f => strIn f ll) ||
       pyStrip ll ∈ goalsExactSkips) &&
     (startsWithBullet line || goalWords.any (fun w => strIn w ll)))

/-- Keep-guard of the goals standalone paragraph branch (also rejects
paragraphs matching a full trigger pattern). -/
def goalsParaKeep (raw : String) : Bool :=
  let pt := pyStrip raw
  pt ≠ "" && pt.length > 10 &&
    (let pl := pyLower pt
     !(anyTrigger goalsTriggerPats pt ||
       skip_terms.any (fun t => strIn t pl) ||
       goalsTrigFragments.any (fun f => strIn f pl) ||
       pyStrip pl ∈ goalsExactSkips) &&
     (startsWithBullet pt || goalWords.any (fun w => strIn w pl)))

/-- Pass 2 of `extract_session_goals` for one shape. -/
def goalsProcessShape (acc : List String) (sh : ShapeM) : List String :=
  match sh with
  | none => acc
  | some tf =>
    let full_text := tfText tf
    if full_text = "" then acc
    else
      match firstTriggerEnd goalsTriggerPats full_text with
      | some e =>
        let content := pyStrip (pySliceFrom full_text (e : Int))
        (pySplitNl content).foldl (lineStep goalsTrigLineKeep cleanStrippedLine) acc
      | none =>
        let acc1 := (pySplitNl full_text).foldl
          (lineStep goalsStandaloneKeep cleanStrippedLine) acc
        (tf.map paraText).foldl (lineStep goalsParaKeep cleanStrippedLine) acc1

/-- `extract_session_goals(slide)`. -/
def extract_session_goals (slide : SlideM) : List String :=
  let slide_has_goals := slide.any fun sh =>
    match sh with
    | some tf => tfText tf ≠ "" && anyTrigger goalsTriggerPats (tfText tf)
    | none => false
  if slide_has_goals then slide.foldl goalsProcessShape [] else []

/-! ## Assessments extractor -/

/-- Instructional boilerplate skipped by the assessments extractor. -/
def assessInstructions : List String :=
  [ "now that you have completed", "module activity sheet", "student portfolio",
    "turn on your call light", "review the following skills",
    "waiting for your instructor", "find the module activity sheet" ]

/-- The assessment-like action vocabulary of the standalone branch. -/
def assessWords : List String :=
  [ "describe", "explain", "identify", "analyze", "compare", "demonstrate",
    "use", "construct", "examine", "define", "name", "list", "calculate",
    "determine", "give", "provide", "show", "illustrate", "evaluate" ]

/-- Keep-guard of the assessments trigger branch. -/
def assessTrigLineKeep (raw : String) : Bool :=
  let line := pyStrip raw
  line ≠ "" && line.length > 3 &&
    (let ll := pyLower line
     !(strIn "review the list" ll || strIn "before continuing" ll ||
       assessInstructions.any (fun f => strIn f ll)))

/-- Keep-guard of the assessments standalone branch. -/
def assessStandaloneKeep (raw : String) : Bool :=
  let line := pyStrip raw
  line ≠ "" && line.length > 10 &&
    (let ll := pyLower line
     !(anyTrigger assessTriggerPats line ||
       strIn "review the list" ll || strIn "before continuing" ll ||
       skip_terms.any (fun t => strIn t ll) ||
       assessInstructions.any (fun f => strIn f ll)) &&
     (matchesNumberedLine line || startsWithBullet line ||
       assessWords.any (fun w => strIn w ll)))

/-- Pass 2 of `extract_assessments` for one shape. -/
def assessProcessShape (acc : List String) (sh : ShapeM) : List String :=
  match sh with
  | none => acc
  | some tf =>
    let full_text := tfText tf
    if full_text = "" then acc
    else
      match firstTriggerEnd assessTriggerPats full_text with
      | some e =>
        let content := pyStrip (pySliceFrom full_text (e : Int))
        (pySplitNl content).foldl (lineStep assessTrigLineKeep cleanStrippedLine) acc
      | none =>
        (pySplitNl full_text).foldl (lineStep assessStandaloneKeep cleanStrippedLine) acc

/-- `extract_assessments(slide)`. -/
def extract_assessments (slide : SlideM) : List String :=
  let slide_has_assessment := slide.any fun sh =>
    match sh with
    | some tf => tfText tf ≠ "" && anyTrigger assessTriggerPats (tfText tf)
    | none => false
  if slide_has_assessment then slide.foldl assessProcessShape [] else []

/-! ## Careers extractor -/

/-- Career item acceptance: bullet, numbered line, or a short title-cased
line not ending in a colon. -/
def careersLineKeep (line : String) : Bool :=
  startsWithBullet line || matchesNumberedLine line ||
  (line.length ≤ 80 && firstIsUpper line && !endsWithColon line)

/-- `extract_careers` for one shape: line pass then paragraph pass, each
with its own trigger flag; no slide-level gate. -/
def careersProcessShape (acc : List String) (sh : ShapeM) : List String :=
  match sh with
  | none => acc
  | some tf =>
    let full_text := tfText tf
    if full_text = "" then acc
    else if anyTrigger careersTriggerPats full_text then
      let lines := (pySplitNl full_text).map pyStrip
      let acc1 := (lines.foldl
        (trigStep (anyTrigger careersTriggerPats) careersLineKeep clean_list_item)
        (false, acc)).2
      let paras := tf.map fun p => pyStrip (paraText p)
      (paras.foldl
        (trigStep (anyTrigger careersTriggerPats) careersLineKeep clean_list_item)
        (false, acc1)).2
    else acc

/-- `extract_careers(slide)`. -/
def extract_careers (slide : SlideM) : List String :=
  slide.foldl careersProcessShape []

/-! ## Materials extractor -/

/-- Material item acceptance: bullet, numbered line, or any line of at most
120 characters not ending in a colon. -/
def materialsLineKeep (line : String) : Bool :=
  startsWithBullet line || matchesNumberedLine line ||
  (line.length ≤ 120 && !endsWithColon line)

/-- `extract_session_materials` for one shape. -/
def materialsProcessShape (acc : List String) (sh : ShapeM) : List String :=
  match sh with
  | none => acc
  | some tf =>
    let full_text := tfText tf
    if full_text = "" then acc
    else if anyTrigger materialsTriggerPats full_text then
      let lines := (pySplitNl full_text).map pyStrip
      let acc1 := (lines.foldl
        (trigStep (anyTrigger materialsTriggerPats) materialsLineKeep clean_list_item)
        (false, acc)).2
      let paras := tf.map fun p => pyStrip (paraText p)
      (paras.foldl
        (trigStep (anyTrigger materialsTriggerPats) materialsLineKeep clean_list_item)
        (false, acc1)).2
    else acc

/-- `extract_session_materials(slide)`. -/
def extract_session_materials (slide : SlideM) : List String :=
  slide.foldl materialsProcessShape []

/-! ## Per-Deck Aggregator and the per-corpus driver -/

/-- The per-deck aggregate returned by `extract_all_content_from_ppt`. -/
structure DeckRecord where
  vocabulary : List (String × String) := []
  goals : List String := []
  assessments : List String := []
  careers : List String := []
  materials : List String := []
deriving DecidableEq

/-- One input document: its theme palette and its ordered slides. -/
structure Deck where
  pres : Pres
  slides : List SlideM

/-- The body of the per-slide loop of `extract_all_content_from_ppt`:
vocabulary extends, goals and assessments append with global exact-string
dedupe, careers is replaced wholesale by a non-empty extraction, materials
extends.  (The source guards the vocabulary/materials `extend` and the
goals/assessments loops with a non-emptiness test that only gates logging;
on an empty extraction both sides are the identity.) -/
def aggStep (pres : Pres) (rec : DeckRecord) (slide : SlideM) : DeckRecord :=
  let vocab_items := extract_vocabulary_from_slide pres slide
  let goals := extract_session_goals slide
  let assessment_items := extract_assessments slide
  let careers_items := extract_careers slide
  let materials_items := extract_session_materials slide
  { vocabulary := rec.vocabulary ++ vocab_items
    goals := goals.foldl addIfNew rec.goals
    assessments := assessment_items.foldl addIfNew rec.assessments
    careers := if careers_items ≠ [] then careers_items else rec.careers
    materials := rec.materials ++ materials_items }

/-- `extract_all_content_from_ppt`: the whole body runs under `try`; an
exception while opening or parsing the deck (the `Except.error` input)
yields the record with all five lists empty. -/
def extract_all_content_from_ppt (input : Except Unit Deck) : DeckRecord :=
  match input with
  | .ok d => d.slides.foldl (aggStep d.pres) {}
  | .error _ => {}

/-- `any(content.values())`: some of the five lists is non-empty. -/
def recordHasContent (rec : DeckRecord) : Bool :=
  !rec.vocabulary.isEmpty || !rec.goals.isEmpty || !rec.assessments.isEmpty ||
  !rec.careers.isEmpty || !rec.materials.isEmpty

/-- `process_all_ppt_files`: extract every deck in order and keep the
records with content, keyed by filename. -/
def process_all_ppt_files (files : List (String × Except Unit Deck)) :
    List (String × DeckRecord) :=
  files.foldl
    (fun acc f =>
      let content := extract_all_content_from_ppt f.2
      if recordHasContent content then acc ++ [(f.1, content)] else acc)
    []

/-! ## Module acronym -/

/-- Python `s.rfind(c)`: the last index of `c`, or -1. -/
def pyRFindAux (c : Char) (i : Nat) (best : Int) : List Char → Int
  | [] => best
  | x :: t => pyRFindAux c (i + 1) (if x = c then (i : Int) else best) t

def pyRFind (s : String) (c : Char) : Int := pyRFindAux c 0 (-1) s.data

/-- The stem of `os.path.splitext` (posix): split at the last dot after
the last separator, but only when a non-dot character stands before that
dot inside the basename (a leading-dot filename keeps its dot). -/
def splitextStem (p : String) : String :=
  let sepIndex := pyRFind p '/'
  let dotIndex := pyRFind p '.'
  if dotIndex > sepIndex then
    let between := (p.data.take dotIndex.toNat).drop (sepIndex + 1).toNat
    if between.any (· ≠ '.') then ⟨p.data.take dotIndex.toNat⟩ else p
  else p

/-- `extract_module_acronym(filename)`: the part of the stem before the
first underscore; "UNKN" if `split` gave no parts (it never does). -/
def extract_module_acronym (filename : String) : String :=
  let base_name := splitextStem filename
  let parts := (splitOnChar '_' base_name.data).map (fun l => (⟨l⟩ : String))
  match parts with
  | [] => "UNKN"
  | p :: _ => p

/-- The spec-side reading of `extract_module_acronym` (spec §6): the
filename's leading underscore-delimited segment, i.e. the stem text before
the first underscore. -/
def leadingUnderscoreSegment (f : String) : String :=
  ⟨(splitextStem f).data.takeWhile (fun c => c ≠ '_')⟩

/-! ## Concrete example data used by the claim theorems and witnesses -/

/-- A presentation with no resolvable theme colors. -/
def palNone : Pres := ⟨fun _ => none⟩

/-- A one-line paragraph of a single plain (non-bold, uncolored) run. -/
def plainPara (l : String) : ParagraphM := ⟨[⟨l, false, {}⟩], {}⟩

/-- The C4 paragraph: a bold blue "Osmosis" run followed by a plain run. -/
def vocabPara : ParagraphM :=
  ⟨[⟨"Osmosis", true, ⟨some (.mk 0 0 255), none⟩⟩,
    ⟨": the movement of water.", false, {}⟩], {}⟩

def vocabSlide : SlideM := [some [vocabPara]]

/-- A paragraph whose computed definition trims to 2 characters. -/
def shortDefPara : ParagraphM :=
  ⟨[⟨"Osmosis", true, ⟨some (.mk 0 0 255), none⟩⟩, ⟨":ab", false, {}⟩], {}⟩

/-- A careers slide: one shape titled "Related Careers" over the items. -/
def careersSlide (items : List String) : SlideM :=
  [some (("Related Careers" :: items).map plainPara)]

/-- The C2 deck: slide 5 extracts `["Geologist"]`, slide 9 extracts
`["Geologist", "Hydrologist"]`, the other slides are empty. -/
def exCareersDeck : Deck :=
  ⟨palNone,
   [[], [], [], [], careersSlide ["Geologist"], [], [], [],
    careersSlide ["Geologist", "Hydrologist"]]⟩

/-- A goals slide extracting `["Explore maps together"]`. -/
def goalsSlide : SlideM :=
  [some [plainPara "Session Goals", plainPara "Explore maps together"]]

def exGoalsDeck : Deck := ⟨palNone, [goalsSlide]⟩

/-- The same goals slide twice: the goal string repeats across slides. -/
def exDupGoalsDeck : Deck := ⟨palNone, [goalsSlide, goalsSlide]⟩

/-- Two decks sharing the same goal string, as two corpus files. -/
def exTwoDeckFiles : List (String × Except Unit Deck) :=
  [("a.pptx", .ok exGoalsDeck), ("b.pptx", .ok exGoalsDeck)]

/-! ## Invariant lemmas: the guarded append keeps lists duplicate-free -/

theorem addIfNew_nodup {l : List String} (x : String) (h : l.Nodup) :
    (addIfNew l x).Nodup := by
  unfold addIfNew
  split
  · exact h
  · next hx => simpa [List.nodup_append] using ⟨h, by simpa using hx⟩

theorem foldl_addIfNew_nodup (xs : List String) :
    ∀ {acc : List String}, acc.Nodup → (xs.foldl addIfNew acc).Nodup := by
  induction xs with
  | nil => intro acc h; exact h
  | cons x xs ih => intro acc h; exact ih (addIfNew_nodup x h)

theorem lineStep_nodup (keep : String → Bool) (cleanF : String → String)
    {acc : List String} (raw : String) (h : acc.Nodup) :
    (lineStep keep cleanF acc raw).Nodup := by
  unfold lineStep
  split
  · dsimp only
    split
    · exact h
    · exact addIfNew_nodup _ h
  · exact h

theorem foldl_lineStep_nodup (keep : String → Bool) (cleanF : String → String)
    (lines : List String) :
    ∀ {acc : List String}, acc.Nodup →
      (lines.foldl (lineStep keep cleanF) acc).Nodup := by
  induction lines with
  | nil => intro acc h; exact h
  | cons l ls ih => intro acc h; exact ih (lineStep_nodup keep cleanF l h)

theorem trigStep_nodup (isTrig keep : String → Bool) (cleanF : String → String)
    {st : Bool × List String} (line : String) (h : st.2.Nodup) :
    (trigStep isTrig keep cleanF st line).2.Nodup := by
  unfold trigStep
  split
  · exact h
  · split
    · dsimp only
      split
      · exact h
      · exact addIfNew_nodup _ h
    · exact h

theorem foldl_trigStep_nodup (isTrig keep : String → Bool)
    (cleanF : String → String) (lines : List String) :
    ∀ {st : Bool × List String}, st.2.Nodup →
      (lines.foldl (trigStep isTrig keep cleanF) st).2.Nodup := by
  induction lines with
  | nil => intro st h; exact h
  | cons l ls ih => intro st h; exact ih (trigStep_nodup isTrig keep cleanF l h)

theorem goalsProcessShape_nodup (sh : ShapeM) {acc : List String}
    (h : acc.Nodup) : (goalsProcessShape acc sh).Nodup := by
  unfold goalsProcessShape
  match sh with
  | none => exact h
  | some tf =>
    dsimp only
    split
    · exact h
    · split
      · exact foldl_lineStep_nodup _ _ _ h
      · exact foldl_lineStep_nodup _ _ _ (foldl_lineStep_nodup _ _ _ h)

theorem extract_session_goals_nodup (slide : SlideM) :
    (extract_session_goals slide).Nodup := by
  unfold extract_session_goals
  dsimp only
  split
  · have : ∀ (shs : List ShapeM) (acc : List String), acc.Nodup →
        (shs.foldl goalsProcessShape acc).Nodup := by
      intro shs
      induction shs with
      | nil => intro acc h; exact h
      | cons s ss ih => intro acc h; exact ih _ (goalsProcessShape_nodup s h)
    exact this slide [] List.nodup_nil
  · exact List.nodup_nil

theorem assessProcessShape_nodup (sh : ShapeM) {acc : List String}
    (h : acc.Nodup) : (assessProcessShape acc sh).Nodup := by
  unfold assessProcessShape
  match sh with
  | none => exact h
  | some tf =>
    dsimp only
    split
    · exact h
    · split
      · exact foldl_lineStep_nodup _ _ _ h
      · exact foldl_lineStep_nodup _ _ _ h

theorem extract_assessments_nodup (slide : SlideM) :
    (extract_assessments slide).Nodup := by
  unfold extract_assessments
  dsimp only
  split
  · have : ∀ (shs : List ShapeM) (acc : List String), acc.Nodup →
        (shs.foldl assessProcessShape acc).Nodup := by
      intro shs
      induction shs with
      | nil => intro acc h; exact h
      | cons s ss ih => intro acc h; exact ih _ (assessProcessShape_nodup s h)
    exact this slide [] List.nodup_nil
  · exact List.nodup_nil

theorem careersProcessShape_nodup (sh : ShapeM) {acc : List String}
    (h : acc.Nodup) : (careersProcessShape acc sh).Nodup := by
  unfold careersProcessShape
  match sh with
  | none => exact h
  | some tf =>
    dsimp only
    split
    · exact h
    · split
      · exact foldl_trigStep_nodup _ _ _ _ (foldl_trigStep_nodup _ _ _ _ h)
      · exact h

theorem extract_careers_nodup (slide : SlideM) :
    (extract_careers slide).Nodup := by
  unfold extract_careers
  have : ∀ (shs : List ShapeM) (acc : List String), acc.Nodup →
      (shs.foldl careersProcessShape acc).Nodup := by
    intro shs
    induction shs with
    | nil => intro acc h; exact h
    | cons s ss ih => intro acc h; exact ih _ (careersProcessShape_nodup s h)
  exact this slide [] List.nodup_nil

theorem materialsProcessShape_nodup (sh : ShapeM) {acc : List String}
    (h : acc.Nodup) : (materialsProcessShape acc sh).Nodup := by
  unfold materialsProcessShape
  match sh with
  | none => exact h
  | some tf =>
    dsimp only
    split
    · exact h
    · split
      · exact foldl_trigStep_nodup _ _ _ _ (foldl_trigStep_nodup _ _ _ _ h)
      · exact h

theorem extract_session_materials_nodup (slide : SlideM) :
    (extract_session_materials slide).Nodup := by
  unfold extract_session_materials
  have : ∀ (shs : List ShapeM) (acc : List String), acc.Nodup →
      (shs.foldl materialsProcessShape acc).Nodup := by
    intro shs
    induction shs with
    | nil => intro acc h; exact h
    | cons s ss ih => intro acc h; exact ih _ (materialsProcessShape_nodup s h)
  exact this slide [] List.nodup_nil

/-! ## Aggregation lemmas -/

theorem aggStep_careers (pres : Pres) (rec : DeckRecord) (slide : SlideM) :
    (aggStep pres rec slide).careers =
      if extract_careers slide ≠ [] then extract_careers slide else rec.careers := rfl

theorem aggStep_goals (pres : Pres) (rec : DeckRecord) (slide : SlideM) :
    (aggStep pres rec slide).goals =
      (extract_session_goals slide).foldl addIfNew rec.goals := rfl

theorem aggStep_assessments (pres : Pres) (rec : DeckRecord) (slide : SlideM) :
    (aggStep pres rec slide).assessments =
      (extract_assessments slide).foldl addIfNew rec.assessments := rfl

theorem getLast?_getD_cons (c r : List String) (l : List (List String)) :
    ((c :: l).getLast?.getD r) = l.getLast?.getD c := by
  cases l with
  | nil => rfl
  | cons a t =>
    rw [List.getLast?_cons_cons]
    cases h : (a :: t).getLast? with
    | none => simp at h
    | some x => rfl

/-- The careers slot of the slide fold is the last non-empty per-slide
extraction, or the incoming value when every slide extracts nothing. -/
theorem foldl_aggStep_careers (pres : Pres) (slides : List SlideM) :
    ∀ rec : DeckRecord,
      (slides.foldl (aggStep pres) rec).careers =
        ((slides.map extract_careers).filter (fun l => !l.isEmpty)).getLast?.getD
          rec.careers := by
  induction slides with
  | nil => intro rec; rfl
  | cons s ss ih =>
    intro rec
    rw [List.foldl_cons, ih, List.map_cons, List.filter_cons]
    by_cases hc : extract_careers s = []
    · simp [hc, aggStep_careers]
    · rw [aggStep_careers]
      simp only [hc, if_true, ne_eq, not_false_iff]
      rw [if_pos (by simpa using hc), getLast?_getD_cons]

theorem foldl_aggStep_goals_nodup (pres : Pres) (slides : List SlideM) :
    ∀ {rec : DeckRecord}, rec.goals.Nodup →
      (slides.foldl (aggStep pres) rec).goals.Nodup := by
  induction slides with
  | nil => intro rec h; exact h
  | cons s ss ih =>
    intro rec h
    rw [List.foldl_cons]
    exact ih (by rw [aggStep_goals]; exact foldl_addIfNew_nodup _ h)

theorem foldl_aggStep_assessments_nodup (pres : Pres) (slides : List SlideM) :
    ∀ {rec : DeckRecord}, rec.assessments.Nodup →
      (slides.foldl (aggStep pres) rec).assessments.Nodup := by
  induction slides with
  | nil => intro rec h; exact h
  | cons s ss ih =>
    intro rec h
    rw [List.foldl_cons]
    exact ih (by rw [aggStep_assessments]; exact foldl_addIfNew_nodup _ h)

/-- Every record the driver reports comes from extracting its own file's
input, with content; the accumulated entries before `files` are untouched. -/
theorem process_mem_aux (files : List (String × Except Unit Deck)) :
    ∀ (acc : List (String × DeckRecord)) (p : String × DeckRecord),
      p ∈ files.foldl
        (fun acc f =>
          let content := extract_all_content_from_ppt f.2
          if recordHasContent content then acc ++ [(f.1, content)] else acc)
        acc →
      p ∈ acc ∨ ∃ inp, (p.1, inp) ∈ files ∧
        p.2 = extract_all_content_from_ppt inp ∧ recordHasContent p.2 = true := by
  induction files with
  | nil => intro acc p hp; exact Or.inl hp
  | cons f fs ih =>
    intro acc p hp
    rw [List.foldl_cons] at hp
    rcases ih _ p hp with hin | ⟨inp, hmem, hrec, hcon⟩
    · dsimp only at hin
      by_cases hc : recordHasContent (extract_all_content_from_ppt f.2)
      · rw [if_pos hc] at hin
        rcases List.mem_append.1 hin with hl | hr
        · exact Or.inl hl
        · have hp2 : p = (f.1, extract_all_content_from_ppt f.2) := by simpa using hr
          subst hp2
          exact Or.inr ⟨f.2, by simp, rfl, hc⟩
      · rw [if_neg hc] at hin
        exact Or.inl hin
    · exact Or.inr ⟨inp, List.mem_cons_of_mem _ hmem, hrec, hcon⟩

/-! ## Splitting lemmas for the acronym function (C8) -/

theorem splitOnChar_ne_nil (sep : Char) (l : List Char) :
    splitOnChar sep l ≠ [] := by
  cases l with
  | nil => simp [splitOnChar]
  | cons c cs =>
    unfold splitOnChar
    dsimp only
    split
    · simp
    · split <;> simp

theorem splitOnChar_head (sep : Char) (l : List Char) :
    (splitOnChar sep l).head? = some (l.takeWhile (fun c => c ≠ sep)) := by
  induction l with
  | nil => rfl
  | cons c cs ih =>
    unfold splitOnChar
    dsimp only
    by_cases hc : c = sep
    · rw [if_pos hc]
      simp [List.takeWhile_cons, hc]
    · rw [if_neg hc]
      cases hr : splitOnChar sep cs with
      | nil => exact absurd hr (splitOnChar_ne_nil sep cs)
      | cons h t =>
        rw [hr] at ih
        simp only [List.head?_cons, Option.some.injEq] at ih
        simp [List.takeWhile_cons, hc, ih]

/-! ## Case analysis for the vocabulary guard (C7) -/

theorem extractVocabFromParagraph_cases (pres : Pres) (para : ParagraphM) :
    (∃ w parts, findVocabWord pres para = (some w, parts) ∧
      3 < (computeDefinition w parts (paraText para)).length ∧
      extractVocabFromParagraph pres para =
        [(w, computeDefinition w parts (paraText para))]) ∨
    extractVocabFromParagraph pres para = [] := by
  unfold extractVocabFromParagraph
  split
  · exact Or.inr rfl
  · rcases hw : findVocabWord pres para with ⟨w?, parts⟩
    cases w? with
    | none => exact Or.inr rfl
    | some w =>
      dsimp only
      split
      · next hcond =>
        have hlen : 3 < (computeDefinition w parts (paraText para)).length := by
          have hc := hcond
          rw [Bool.and_eq_true] at hc
          exact of_decide_eq_true hc.2
        exact Or.inl ⟨w, parts, rfl, hlen, rfl⟩
      · exact Or.inr rfl

/-! ## Claim theorems -/

/-- C1 (counterexample): the color (210, 210, 210) has all three channels
above 200 (near-white) and mutually within 10 (gray), yet `is_blue_color`
classifies it as blue, because it lies inside the first bounding box
(blue channel 200–255) and the bounding-box rule is checked first.  This
refutes the claim that the near-white/gray exclusions dominate the
bounding-box rule for all inputs. -/
theorem C1_counterexample :
    200 < 210 ∧ chanDist 210 210 < 10 ∧
    inAnyBlueRange 210 210 210 = true ∧
    is_blue_color (some (.mk 210 210 210)) = true := by decide

/-- C1 (amended): the near-white and gray exclusions dominate only the
heuristic rules that follow them, not the bounding-box rule checked first:
for a value outside every bounding box, mutually-within-10 channels give
false; but any value with all channels in (200, 255] lies inside the first
bounding box and gives true — in particular every near-white value
classifies as blue, and a gray value inside a box classifies as blue. -/
theorem C1_amended :
    (∀ r g b : Nat, inAnyBlueRange r g b = false →
      chanDist r g < 10 → chanDist g b < 10 → chanDist r b < 10 →
      isBlueCore r g b = false) ∧
    (∀ r g b : Nat, r ≤ 255 → g ≤ 255 → b ≤ 255 →
      200 < r → 200 < g → 200 < b → isBlueCore r g b = true) := by
  constructor
  · intro r g b hbox h1 h2 h3
    unfold isBlueCore
    rw [hbox]
    simp only [Bool.false_eq_true, if_false]
    split
    · rfl
    · simp [h1, h2, h3]
  · intro r g b hr hg hb hr2 hg2 hb2
    have hbox : inAnyBlueRange r g b = true := by
      unfold inAnyBlueRange blue_color_ranges
      simp only [List.any_cons, List.any_nil, Bool.or_eq_true, Bool.and_eq_true,
        decide_eq_true_eq]
      left
      omega
    unfold isBlueCore
    rw [hbox]
    rfl

/-- C1 (witness for the amended theorem): (150, 150, 150) is gray and
outside every bounding box, so it classifies false; (210, 210, 210) is
near-white with channels at most 255, so it classifies true. -/
theorem C1_witness :
    isBlueCore 150 150 150 = false ∧ isBlueCore 210 210 210 = true :=
  ⟨C1_amended.1 150 150 150 (by decide) (by decide) (by decide) (by decide),
   C1_amended.2 210 210 210 (by decide) (by decide) (by decide) (by decide)
     (by decide) (by decide)⟩

/-- C2: the deck record's careers list equals exactly the careers list of
the last slide (in document order) whose extraction is non-empty (or stays
empty if there is none); a slide with an empty careers extraction leaves
the running list unchanged; and on the concrete deck where slide 5 yields
["Geologist"] and slide 9 yields ["Geologist", "Hydrologist"], the record
holds exactly slide 9's list. -/
theorem C2_careers_last_write_wins :
    (∀ d : Deck, (extract_all_content_from_ppt (.ok d)).careers =
      ((d.slides.map extract_careers).filter (fun l => !l.isEmpty)).getLast?.getD []) ∧
    (∀ (pres : Pres) (rec : DeckRecord) (slide : SlideM),
      extract_careers slide = [] → (aggStep pres rec slide).careers = rec.careers) ∧
    (extract_careers (careersSlide ["Geologist"]) = ["Geologist"] ∧
     extract_careers (careersSlide ["Geologist", "Hydrologist"]) =
       ["Geologist", "Hydrologist"] ∧
     (extract_all_content_from_ppt (.ok exCareersDeck)).careers =
       ["Geologist", "Hydrologist"]) := by
  refine ⟨?_, ?_, by decide, by decide, by decide⟩
  · intro d
    exact foldl_aggStep_careers d.pres d.slides {}
  · intro pres rec slide h
    rw [aggStep_careers]
    simp [h]

/-- C2 (witness): the goals-only slide extracts no careers, and
aggregating it over a record whose careers are ["Geologist"] leaves them
["Geologist"]. -/
theorem C2_witness :
    extract_careers goalsSlide = [] ∧
    (aggStep palNone { careers := ["Geologist"] } goalsSlide).careers =
      ["Geologist"] :=
  ⟨by decide,
   C2_careers_last_write_wins.2.1 palNone { careers := ["Geologist"] } goalsSlide
     (by decide)⟩

/-- C3: a deck whose opening or parsing raises yields the record with all
five lists empty; the driver's fold is unaffected by such a deck and
continues with the remaining files; and every reported record has content
(a record with all five lists empty is excluded).  The engine is a total
function — the per-deck `try` turns the only modelled failure into the
empty record rather than propagating it. -/
theorem C3_error_isolation :
    (∀ e : Unit, extract_all_content_from_ppt (.error e) =
      { vocabulary := [], goals := [], assessments := [], careers := [],
        materials := [] }) ∧
    (∀ (n : String) (e : Unit) (l1 l2 : List (String × Except Unit Deck)),
      process_all_ppt_files (l1 ++ (n, .error e) :: l2) =
        process_all_ppt_files (l1 ++ l2)) ∧
    (∀ (files : List (String × Except Unit Deck)) (n : String) (r : DeckRecord),
      (n, r) ∈ process_all_ppt_files files → recordHasContent r = true) := by
  refine ⟨fun _ => rfl, ?_, ?_⟩
  · intro n e l1 l2
    unfold process_all_ppt_files
    rw [List.foldl_append, List.foldl_cons, List.foldl_append]
    rfl
  · intro files n r hmem
    rcases process_mem_aux files [] (n, r) hmem with hin | ⟨_, _, _, hcon⟩
    · simp at hin
    · exact hcon

/-- C3 (witness): the goals example deck parses, is reported, and its
record has content. -/
theorem C3_witness :
    recordHasContent (extract_all_content_from_ppt (Except.ok exGoalsDeck)) = true :=
  C3_error_isolation.2.2 [("a.pptx", .ok exGoalsDeck)] "a.pptx"
    (extract_all_content_from_ppt (.ok exGoalsDeck)) (by decide)

/-- C4: the paragraph [bold blue "Osmosis"][plain ": the movement of
water."] yields exactly the one pair ("Osmosis", "the movement of
water."), and that definition is precisely the captured group of the
case-insensitive regex `<term>\s*[:-]?\s*(.+)` on the paragraph text. -/
theorem C4_osmosis_example :
    extract_vocabulary_from_slide palNone vocabSlide =
      [("Osmosis", "the movement of water.")] ∧
    termDefSearch "Osmosis" (paraText vocabPara) =
      some "the movement of water." := by
  constructor
  · decide
  · decide

/-- C5: per deck, the aggregated goals and assessments lists are
duplicate-free (exact-string dedupe over the whole deck); every record the
driver reports is the extraction of its own file alone, so no dedupe state
crosses deck boundaries; concretely, the same goal string in two decks
appears once in each record, and repeated across two slides of one deck it
appears once. -/
theorem C5_goals_assessments_dedupe :
    (∀ d : Deck, (extract_all_content_from_ppt (.ok d)).goals.Nodup ∧
      (extract_all_content_from_ppt (.ok d)).assessments.Nodup) ∧
    (∀ (files : List (String × Except Unit Deck)) (n : String) (r : DeckRecord),
      (n, r) ∈ process_all_ppt_files files →
      ∃ inp, (n, inp) ∈ files ∧ r = extract_all_content_from_ppt inp) ∧
    ((process_all_ppt_files exTwoDeckFiles).map (fun e => (e.1, e.2.goals)) =
      [("a.pptx", ["Explore maps together"]),
       ("b.pptx", ["Explore maps together"])]) ∧
    ((extract_all_content_from_ppt (.ok exDupGoalsDeck)).goals =
      ["Explore maps together"]) := by
  refine ⟨?_, ?_, by decide, by decide⟩
  · intro d
    exact ⟨foldl_aggStep_goals_nodup d.pres d.slides List.nodup_nil,
      foldl_aggStep_assessments_nodup d.pres d.slides List.nodup_nil⟩
  · intro files n r hmem
    rcases process_mem_aux files [] (n, r) hmem with hin | ⟨inp, hf, hr, _⟩
    · simp at hin
    · exact ⟨inp, hf, hr⟩

/-- C5 (witness): in the two-deck corpus sharing one goal string, the
first reported record is the extraction of deck "a.pptx" alone. -/
theorem C5_witness :
    ∃ inp, ("a.pptx", inp) ∈ exTwoDeckFiles ∧
      extract_all_content_from_ppt (.ok exGoalsDeck) =
        extract_all_content_from_ppt inp :=
  C5_goals_assessments_dedupe.2.1 exTwoDeckFiles "a.pptx"
    (extract_all_content_from_ppt (.ok exGoalsDeck)) (by decide)

/-- C6: the list-item cleaner strips a leading numeric marker only when
the digits are followed by `.` or `)` plus whitespace (otherwise the
marker regex does not fire and the text passes through), and strips
leading bullet glyphs: "2. Wear goggles" becomes "Wear goggles" while the
quantity "2 safety goggles" is preserved verbatim. -/
theorem C6_clean_list_item :
    (∀ s : String, hasNumMarker s = false → stripNumMarker s = s) ∧
    clean_list_item "2. Wear goggles" = "Wear goggles" ∧
    clean_list_item "2 safety goggles" = "2 safety goggles" ∧
    hasNumMarker "2 safety goggles" = false ∧
    clean_list_item "• Wear gloves" = "Wear gloves" := by
  refine ⟨?_, by decide, by decide, by decide, by decide⟩
  intro s h
  have hm : matchE (fuelFor numMarkerElems s.data) numMarkerElems none s.data = [] := by
    rcases hx : matchE (fuelFor numMarkerElems s.data) numMarkerElems none s.data with
      _ | ⟨a, t⟩
    · rfl
    · unfold hasNumMarker at h
      rw [hx] at h
      simp at h
  unfold stripNumMarker
  rw [hm]

/-- C6 (witness): "2 safety goggles" has no numeric-list marker, so the
marker stripper leaves it unchanged. -/
theorem C6_witness :
    stripNumMarker "2 safety goggles" = "2 safety goggles" :=
  C6_clean_list_item.1 "2 safety goggles" (by decide)

/-- C7: every paragraph yields at most one (term, definition) pair; every
emitted definition (already trimmed by construction) is longer than 3
characters; and a paragraph with a found term whose computed definition
has length at most 3 yields no item. -/
theorem C7_definition_guard :
    ∀ (pres : Pres) (para : ParagraphM),
      (extractVocabFromParagraph pres para).length ≤ 1 ∧
      (∀ t d : String, (t, d) ∈ extractVocabFromParagraph pres para →
        3 < d.length) ∧
      (∀ (w : String) (parts : List String),
        findVocabWord pres para = (some w, parts) →
        (computeDefinition w parts (paraText para)).length ≤ 3 →
        extractVocabFromParagraph pres para = []) := by
  intro pres para
  refine ⟨?_, ?_, ?_⟩
  · rcases extractVocabFromParagraph_cases pres para with ⟨w, parts, _, _, he⟩ | he <;>
      simp [he]
  · intro t d hmem
    rcases extractVocabFromParagraph_cases pres para with ⟨w, parts, _, hlen, he⟩ | he
    · rw [he] at hmem
      have : t = w ∧ d = computeDefinition w parts (paraText para) := by
        simpa using hmem
      rw [this.2]
      exact hlen
    · rw [he] at hmem
      simp at hmem
  · intro w parts hw hle
    rcases extractVocabFromParagraph_cases pres para with ⟨w', parts', hw', hlen, he⟩ | he
    · rw [hw] at hw'
      injection hw' with h1 h2
      injection h1 with h1
      subst h1
      subst h2
      omega
    · exact he

/-- C7 (witness): on the concrete paragraphs, the emitted Osmosis
definition is longer than 3 characters, and the paragraph whose computed
definition is "ab" (length 2) yields no item. -/
theorem C7_witness :
    3 < ("the movement of water." : String).length ∧
    extractVocabFromParagraph palNone shortDefPara = [] :=
  ⟨(C7_definition_guard palNone vocabPara).2.1 "Osmosis" "the movement of water."
      (by decide),
   (C7_definition_guard palNone shortDefPara).2.2 "Osmosis" [":ab"] (by decide)
      (by decide)⟩

/-- C8: `extract_module_acronym` is a pure function of the filename that
always returns the stem's text before the first underscore — the leading
underscore-delimited segment in the spec's words.  The "UNKN" fallback
never fires because Python's `split` always returns at least one part
(modelled by `splitOnChar` never being empty). -/
theorem C8_acronym_leading_segment :
    ∀ f : String,
      extract_module_acronym f = leadingUnderscoreSegment f ∧
      splitOnChar '_' (splitextStem f).data ≠ [] := by
  intro f
  refine ⟨?_, splitOnChar_ne_nil _ _⟩
  unfold extract_module_acronym leadingUnderscoreSegment
  dsimp only
  cases hr : splitOnChar '_' (splitextStem f).data with
  | nil => exact absurd hr (splitOnChar_ne_nil _ _)
  | cons h t =>
    have hh := splitOnChar_head '_' (splitextStem f).data
    rw [hr] at hh
    simp only [List.head?_cons, Option.some.injEq] at hh
    simp [hh]

/-- C9: the Color Classifier is total at its interface: `None` classifies
as non-emphasis, and any malformed value whose channel extraction raises
(the only raising step of the `try` block) classifies as non-emphasis via
the bare `except` — `is_blue_color` is a Lean function into `Bool`, so it
returns a boolean on every input and can propagate no exception. -/
theorem C9_total_classifier :
    is_blue_color none = false ∧
    (∀ v : RGBValue, getChannels v = .error () → is_blue_color (some v) = false) := by
  refine ⟨rfl, ?_⟩
  intro v hv
  cases v with
  | mk r g b => simp [getChannels] at hv
  | malformed => rfl

/-- C9 (witness): the malformed color value classifies as non-emphasis. -/
theorem C9_witness : is_blue_color (some RGBValue.malformed) = false :=
  C9_total_classifier.2 RGBValue.malformed rfl

/-- C10: each of the four per-slide section extractors already applies
exact-string dedupe inside the slide (items are appended only when not yet
present), so every per-slide result is a duplicate-free list. -/
theorem C10_per_slide_dedupe :
    ∀ slide : SlideM,
      (extract_session_goals slide).Nodup ∧
      (extract_assessments slide).Nodup ∧
      (extract_careers slide).Nodup ∧
      (extract_session_materials slide).Nodup :=
  fun slide =>
    ⟨extract_session_goals_nodup slide, extract_assessments_nodup slide,
     extract_careers_nodup slide, extract_session_materials_nodup slide⟩

end DocExtract
